import Mathlib

/-!
# qzoke: the `qzoke_md5` PHP binding and the MD5 engine it forwards to

`src/qzoke.c` holds the PHP function `qzoke_md5`, which parses one string
argument, hands it to the externally compiled routine `zig_md5` together with
a 33-byte stack buffer, and turns the outcome into a PHP value: `false`
when the routine returned `NULL`, otherwise the first 32 bytes of the buffer.

The C function is embedded as `zif_qzoke_md5`, in state-passing style over a
routine that may have effects on a world the function cannot otherwise reach.
Run over a routine that records its own calls, it gives `qzoke_md5`, whose
outcome holds the returned value and the calls that were made.

The binding is embedded from the C source.  The routine `zig_md5` is declared
in `qzoke.c` but defined in a Zig file that is not among the sources; it is
modelled from the specification (the classical MD5 algorithm with lowercase
hexadecimal output).

Bytes and 32-bit words are natural numbers; every word operation reduces
modulo `2 ^ 32` explicitly.
-/

set_option autoImplicit false
set_option maxRecDepth 100000

namespace Qzoke

/-! ## The MD5 engine (specification sections 3 and 4.1) -/

/-- Modelled from the spec: the number of `0x00` bytes of the Padded Message
(the padding lives inside the absent `zig_md5`).  It is the least count for
which message, `0x80` byte, zeros and the 8-byte length field together fill a
whole number of 64-byte blocks. -/
def padZeros (len : Nat) : Nat :=
  (64 - (len + 9) % 64) % 64

/-- Modelled from the spec: the little-endian encoding of `v` in `n` bytes,
least significant byte first (part of the absent `zig_md5`). -/
def leBytes : Nat → Nat → List Nat
  | 0, _ => []
  | n + 1, v => v % 256 :: leBytes n (v / 256)

/-- Modelled from the spec: the Padded Message of section 3 (built inside the
absent `zig_md5`): the message, one `0x80` byte, the zero bytes, and the bit
length modulo `2 ^ 64` in 8 little-endian bytes. -/
def pad (m : List Nat) : List Nat :=
  m ++ [0x80] ++ List.replicate (padZeros m.length) 0 ++ leBytes 8 ((8 * m.length) % 2 ^ 64)

/-- Modelled from the spec: the Digest State of section 3, the four 32-bit
accumulator words `A, B, C, D` kept by the absent `zig_md5`. -/
structure State where
  a : Nat
  b : Nat
  c : Nat
  d : Nat
  deriving DecidableEq

/-- Modelled from the spec: the initial Digest State of section 4.1, step 3
(a constant of the absent `zig_md5`). -/
def initState : State :=
  ⟨0x67452301, 0xefcdab89, 0x98badcfe, 0x10325476⟩

/-- Modelled from the spec: the per-round additive constants `K[i]` of section
4.1, step 4c, a table of the absent `zig_md5`.  The specification names the
table of the classical algorithm without listing it; these are its 64 entries,
`floor (2 ^ 32 * |sin (i + 1)|)`. -/
def K : List Nat :=
  [0xd76aa478, 0xe8c7b756, 0x242070db, 0xc1bdceee,
   0xf57c0faf, 0x4787c62a, 0xa8304613, 0xfd469501,
   0x698098d8, 0x8b44f7af, 0xffff5bb1, 0x895cd7be,
   0x6b901122, 0xfd987193, 0xa679438e, 0x49b40821,
   0xf61e2562, 0xc040b340, 0x265e5a51, 0xe9b6c7aa,
   0xd62f105d, 0x02441453, 0xd8a1e681, 0xe7d3fbc8,
   0x21e1cde6, 0xc33707d6, 0xf4d50d87, 0x455a14ed,
   0xa9e3e905, 0xfcefa3f8, 0x676f02d9, 0x8d2a4c8a,
   0xfffa3942, 0x8771f681, 0x6d9d6122, 0xfde5380c,
   0xa4beea44, 0x4bdecfa9, 0xf6bb4b60, 0xbebfbc70,
   0x289b7ec6, 0xeaa127fa, 0xd4ef3085, 0x04881d05,
   0xd9d4d039, 0xe6db99e5, 0x1fa27cf8, 0xc4ac5665,
   0xf4292244, 0x432aff97, 0xab9423a7, 0xfc93a039,
   0x655b59c3, 0x8f0ccc92, 0xffeff47d, 0x85845dd1,
   0x6fa87e4f, 0xfe2ce6e0, 0xa3014314, 0x4e0811a1,
   0xf7537e82, 0xbd3af235, 0x2ad7d2bb, 0xeb86d391]

/-- Modelled from the spec: the per-round left-rotation amounts of section 4.1,
step 4c, a table of the absent `zig_md5`.  The specification calls them fixed
without listing them; these are the amounts of the classical algorithm, four
per group, repeated four times. -/
def shiftAmount (i : Nat) : Nat :=
  ([[7, 12, 17, 22], [5, 9, 14, 20], [4, 11, 16, 23], [6, 10, 15, 21]].getD (i / 16) []).getD (i % 4) 0

/-- Modelled from the spec: the fixed permutation `word-index(i)` of section
4.1, step 4c, one per group, as in the classical algorithm (inside the absent
`zig_md5`). -/
def wordIndex (i : Nat) : Nat :=
  if i < 16 then i
  else if i < 32 then (5 * i + 1) % 16
  else if i < 48 then (3 * i + 5) % 16
  else (7 * i) % 16

/-- Modelled from the spec: the complement `¬` of a 32-bit word, as the round
functions of the absent `zig_md5` use it (section 4.1, step 4b). -/
def not32 (x : Nat) : Nat :=
  x ^^^ 0xffffffff

/-- Modelled from the spec: the nonlinear function of round `i` of the absent
`zig_md5` (section 4.1, step 4b): group 1 `(B∧C)∨(¬B∧D)`, group 2
`(D∧B)∨(¬D∧C)`, group 3 `B⊕C⊕D`, group 4 `C⊕(B∨¬D)`. -/
def roundF (i b c d : Nat) : Nat :=
  if i < 16 then (b &&& c) ||| (not32 b &&& d)
  else if i < 32 then (d &&& b) ||| (not32 d &&& c)
  else if i < 48 then b ^^^ c ^^^ d
  else c ^^^ (b ||| not32 d)

/-- Modelled from the spec: the left-rotate of the glossary, used inside the
absent `zig_md5`: a circular shift within a 32-bit word, the bits shifted out
at the top re-entering at the bottom. -/
def rotl32 (x n : Nat) : Nat :=
  ((x <<< n) ||| (x >>> (32 - n))) % 2 ^ 32

/-- Modelled from the spec: one round of the absent `zig_md5` (section 4.1,
step 4c): the sum `F + A + K[i] + M[word-index(i)]` modulo `2 ^ 32`, rotated
left, plus `B`, becomes the new `B`; the other registers rotate roles. -/
def round (M : List Nat) (s : State) (i : Nat) : State :=
  let f := (roundF i s.b s.c s.d + s.a + K.getD i 0 + M.getD (wordIndex i) 0) % 2 ^ 32
  ⟨s.d, (s.b + rotl32 f (shiftAmount i)) % 2 ^ 32, s.b, s.c⟩

/-- Modelled from the spec: the 32-bit word whose little-endian bytes are the
first four of `bs` (section 4.1, step 4a, inside the absent `zig_md5`). -/
def leWord (bs : List Nat) : Nat :=
  bs.getD 0 0 + 256 * bs.getD 1 0 + 65536 * bs.getD 2 0 + 16777216 * bs.getD 3 0

/-- Modelled from the spec: a 64-byte block read as sixteen little-endian
32-bit words (section 4.1, step 4a, inside the absent `zig_md5`). -/
def blockWords (block : List Nat) : List Nat :=
  (List.range 16).map fun j => leWord (block.drop (4 * j))

/-- Modelled from the spec: the compression of one block inside the absent
`zig_md5` (section 4.1, steps 4a to 4d): 64 rounds, then the chaining addition
of the state before the block, each word modulo `2 ^ 32`. -/
def processBlock (s : State) (block : List Nat) : State :=
  let t := (List.range 64).foldl (round (blockWords block)) s
  ⟨(s.a + t.a) % 2 ^ 32, (s.b + t.b) % 2 ^ 32, (s.c + t.c) % 2 ^ 32, (s.d + t.d) % 2 ^ 32⟩

/-- Modelled from the spec: the consecutive 64-byte blocks of the Padded
Message, in order (section 4.1, step 4, inside the absent `zig_md5`). -/
def blocks (p : List Nat) : List (List Nat) :=
  (List.range (p.length / 64)).map fun j => (p.drop (64 * j)).take 64

/-- Modelled from the spec: the Digest (section 4.1, steps 1 to 6, computed
inside the absent `zig_md5`): pad, run the blocks in sequence from the initial
state, and write `A, B, C, D` as four little-endian words, 16 bytes. -/
def digest (m : List Nat) : List Nat :=
  let s := (blocks (pad m)).foldl processBlock initState
  leBytes 4 s.a ++ leBytes 4 s.b ++ leBytes 4 s.c ++ leBytes 4 s.d

/-- Modelled from the spec: the lowercase hexadecimal character of a nibble
(section 3, Hex Encoding, produced by the absent `zig_md5`). -/
def hexDigit (n : Nat) : Nat :=
  if n < 10 then 48 + n else 87 + n

/-- Modelled from the spec: the Hex Encoding of section 3 (produced by the
absent `zig_md5`): two lowercase hexadecimal characters per byte, most
significant nibble first. -/
def hexEncode (bs : List Nat) : List Nat :=
  bs.flatMap fun b => [hexDigit (b / 16 % 16), hexDigit (b % 16)]

/-- The bytes of an ASCII string literal. -/
def ascii (s : String) : List Nat :=
  s.toList.map Char.toNat

/-! ## The binding (`src/qzoke.c`) -/

/-- A PHP value, as far as the binding can tell values apart: the null value
(what `return_value` holds until the function sets it), a boolean, a string of
bytes, or a value of any other type. -/
inductive Zval where
  | null
  | bool (b : Bool)
  | str (val : List Nat)
  | other (tag : Nat)
  deriving DecidableEq

/-- A `char*` value: `NULL`, or a pointer to some object named by a number. -/
inductive Ptr where
  | NULL
  | object (id : Nat)
  deriving DecidableEq

/-- The array type `char[n]`. -/
abbrev CharArray (n : Nat) : Type :=
  { bs : List Nat // bs.length = n }

/-- The signature `char* zig_md5(const char* input, size_t input_len,
char* output, size_t output_len)` as seen from its one call site, where
`output` points to the local `char output[33]`: the routine returns a pointer
and leaves the 33 bytes of the array in some state. -/
abbrev Delegate : Type :=
  List Nat → Nat → CharArray 33 → Nat → Ptr × CharArray 33

/-- The routine as a C function with effects: besides its result it may change
the state of the world outside the binding, whose type `σ` the binding knows
nothing about. -/
abbrev Routine (σ : Type) : Type :=
  List Nat → Nat → CharArray 33 → Nat → σ → (Ptr × CharArray 33) × σ

/-- One call of `zig_md5`, by the arguments passed. -/
structure Call where
  input : List Nat
  input_len : Nat
  output_len : Nat
  deriving DecidableEq

/-- What one invocation of the PHP function leaves behind: the value in
`return_value` and the calls of `zig_md5` that were made, in order, as the
routine itself recorded them. -/
structure Outcome where
  return_value : Zval
  calls : List Call
  deriving DecidableEq

/-- The macro `Z_PARAM_STRING(input, input_len)`: a string argument yields its
bytes and its length.  An argument of another type goes through the
conversion of the PHP runtime, `weak`, which either fails or yields a string. -/
def Z_PARAM_STRING (weak : Zval → Option (List Nat)) : Zval → Option (List Nat × Nat)
  | .str val => some (val, val.length)
  | arg => (weak arg).map fun val => (val, val.length)

/-- The block `ZEND_PARSE_PARAMETERS_START(1, 1) Z_PARAM_STRING(input,
input_len) ZEND_PARSE_PARAMETERS_END()` of `qzoke_md5`: fewer than 1 or more
than 1 arguments is a parse failure, and so is an argument that is no string
and does not convert to one. -/
def parseParameters (weak : Zval → Option (List Nat)) (args : List Zval) :
    Option (List Nat × Nat) :=
  if args.length < 1 ∨ 1 < args.length then none
  else
    match args with
    | arg :: _ => Z_PARAM_STRING weak arg
    | [] => none

/-- The macro `RETURN_STRINGL(s, l)`: a PHP string of the first `l` bytes at `s`. -/
def RETURN_STRINGL (s : List Nat) (l : Nat) : Zval :=
  .str (s.take l)

/-- The C function that `PHP_FUNCTION(qzoke_md5)` defines in `qzoke.c`, over
the routine `zig` it calls, the argument list of the call, the contents
`output` that the uninitialised local array happens to have, and the state of
the world before the call.  The function touches the world only by calling
`zig`.  On a parse failure it returns at once and `return_value` keeps the
null value. -/
def zif_qzoke_md5 {σ : Type} (zig : Routine σ) (weak : Zval → Option (List Nat))
    (args : List Zval) (output : CharArray 33) (world : σ) : Zval × σ :=
  match parseParameters weak args with
  | none => (.null, world)
  | some (input, input_len) =>
    match zig input input_len output 33 world with
    | ((.NULL, _), after) => (.bool false, after)
    | ((.object _, written), after) => (RETURN_STRINGL written.val 32, after)

/-- A routine without effects of its own, made to record each of its calls:
whenever it is applied it appends the arguments it received to the world,
which is the list of calls so far. -/
def recorded (zig : Delegate) : Routine (List Call) :=
  fun input input_len output output_len calls =>
    (zig input input_len output output_len, calls ++ [⟨input, input_len, output_len⟩])

/-- The PHP function `qzoke_md5` observed from outside: `zif_qzoke_md5` run
over the recording routine, from an empty record. -/
def qzoke_md5 (zig : Delegate) (weak : Zval → Option (List Nat)) (args : List Zval)
    (output : CharArray 33) : Outcome :=
  let r := zif_qzoke_md5 (recorded zig) weak args output []
  ⟨r.1, r.2⟩

/-! ## The routine `zig_md5` -/

theorem leBytes_length (n v : Nat) : (leBytes n v).length = n := by
  induction n generalizing v with
  | zero => rfl
  | succ n ih => simp [leBytes, ih]

theorem digest_length (m : List Nat) : (digest m).length = 16 := by
  simp [digest, leBytes_length]

theorem hexEncode_length (bs : List Nat) : (hexEncode bs).length = 2 * bs.length := by
  induction bs with
  | nil => rfl
  | cons b bs ih =>
    have step : hexEncode (b :: bs)
        = hexDigit (b / 16 % 16) :: hexDigit (b % 16) :: hexEncode bs := by
      simp [hexEncode]
    rw [step]
    simp only [List.length_cons, ih]
    omega

theorem hex_digest_length (m : List Nat) : (hexEncode (digest m)).length = 32 := by
  rw [hexEncode_length, digest_length]

/-- Modelled from the spec: the routine `zig_md5`, declared `extern` in
`qzoke.c` and defined outside the sources.  Following sections 6 and 9, an
output buffer of fewer than 33 bytes (32 hexadecimal characters and the
terminating marker) is a buffer-size mismatch and yields `NULL`; otherwise
the routine writes the Hex Encoding of the Digest of the `input_len` bytes at
`input`, then a zero byte, and returns the buffer it was given. -/
def zig_md5 : Delegate := fun input input_len output output_len =>
  if output_len < 33 then (.NULL, output)
  else
    (.object 0, ⟨hexEncode (digest (input.take input_len)) ++ [0], by
      rw [List.length_append, hex_digest_length]; rfl⟩)

/-! ## Facts about the model shared by the theorems below -/

/-- The zero count is enough: the Padded Message fills whole blocks. -/
theorem padZeros_fills (len : Nat) : (len + 9 + padZeros len) % 64 = 0 := by
  unfold padZeros
  omega

/-- The zero count is the least one that fills whole blocks. -/
theorem padZeros_least (len k : Nat) (h : (len + 9 + k) % 64 = 0) : padZeros len ≤ k := by
  unfold padZeros
  omega

theorem pad_length (m : List Nat) : (pad m).length = m.length + 9 + padZeros m.length := by
  simp [pad, leBytes_length]
  omega

/-- A call with a single string argument parses to that string and its length. -/
theorem parseParameters_str (weak : Zval → Option (List Nat)) (m : List Nat) :
    parseParameters weak [.str m] = some (m, m.length) := by
  simp [parseParameters, Z_PARAM_STRING]

/-- A call with an argument count other than 1 does not parse. -/
theorem parseParameters_count (weak : Zval → Option (List Nat)) (args : List Zval)
    (h : args.length ≠ 1) : parseParameters weak args = none := by
  unfold parseParameters
  rw [if_pos (by omega)]

/-- On a single string argument the C function returns by the result of the
one application `zig m len(m) output 33` to the world it started in, and
leaves the world as that application left it. -/
theorem zif_qzoke_md5_str {σ : Type} (zig : Routine σ) (weak : Zval → Option (List Nat))
    (m : List Nat) (output : CharArray 33) (world : σ) :
    zif_qzoke_md5 zig weak [.str m] output world =
      match (zig m m.length output 33 world).1 with
      | (.NULL, _) => (.bool false, (zig m m.length output 33 world).2)
      | (.object _, written) =>
        (.str (written.val.take 32), (zig m m.length output 33 world).2) := by
  simp only [zif_qzoke_md5, parseParameters_str, RETURN_STRINGL]
  cases hz : zig m m.length output 33 world with
  | mk result after =>
    obtain ⟨pointer, written⟩ := result
    cases pointer <;> rfl

/-- The binding on a single string argument, by the two outcomes of the routine. -/
theorem qzoke_md5_str (zig : Delegate) (weak : Zval → Option (List Nat)) (m : List Nat)
    (output : CharArray 33) :
    qzoke_md5 zig weak [.str m] output =
      match zig m m.length output 33 with
      | (.NULL, _) => ⟨.bool false, [⟨m, m.length, 33⟩]⟩
      | (.object _, written) => ⟨.str (written.val.take 32), [⟨m, m.length, 33⟩]⟩ := by
  simp only [qzoke_md5, zif_qzoke_md5_str, recorded]
  cases hz : zig m m.length output 33 with
  | mk pointer written => cases pointer <;> rfl

/-- The binding over the modelled routine, on a single string argument. -/
theorem qzoke_md5_zig_md5 (weak : Zval → Option (List Nat)) (m : List Nat)
    (output : CharArray 33) :
    qzoke_md5 zig_md5 weak [.str m] output =
      ⟨.str (hexEncode (digest m)), [⟨m, m.length, 33⟩]⟩ := by
  rw [qzoke_md5_str]
  have take_hex : (hexEncode (digest m) ++ [0]).take 32 = hexEncode (digest m) := by
    rw [List.take_append_eq_append_take, hex_digest_length]
    simp [List.take_of_length_le, hex_digest_length]
  simp [zig_md5, take_hex]

/-- The model of the engine agrees with the classical algorithm on messages
of two blocks as well: 56 and 64 bytes `a`. -/
theorem digest_two_blocks :
    hexEncode (digest (List.replicate 56 97)) = ascii "3b0c8ac703f828b04c6c197006d17218" ∧
    hexEncode (digest (List.replicate 64 97)) = ascii "014842d480b571495a4a0363793f7367" := by
  constructor <;> rfl

/-! ## The claims -/

/-- C1: over the modelled routine, `qzoke_md5` returns the known MD5 test
vectors exactly, for the inputs "", "a", "abc", "message digest" and "The
quick brown fox jumps over the lazy dog", whatever the local buffer held
before the call. -/
theorem qzoke_md5_test_vectors (weak : Zval → Option (List Nat)) (output : CharArray 33) :
    (qzoke_md5 zig_md5 weak [.str (ascii "")] output).return_value
      = .str (ascii "d41d8cd98f00b204e9800998ecf8427e") ∧
    (qzoke_md5 zig_md5 weak [.str (ascii "a")] output).return_value
      = .str (ascii "0cc175b9c0f1b6a831c399e269772661") ∧
    (qzoke_md5 zig_md5 weak [.str (ascii "abc")] output).return_value
      = .str (ascii "900150983cd24fb0d6963f7d28e17f72") ∧
    (qzoke_md5 zig_md5 weak [.str (ascii "message digest")] output).return_value
      = .str (ascii "f96b697d7cb7938d525a2f31aaf161d0") ∧
    (qzoke_md5 zig_md5 weak
        [.str (ascii "The quick brown fox jumps over the lazy dog")] output).return_value
      = .str (ascii "9e107d9d372bb6826bd81d3542a419d6") := by
  simp only [qzoke_md5_zig_md5]
  refine ⟨?_, ?_, ?_, ?_, ?_⟩ <;> exact congrArg Zval.str (by rfl)

/-- C2: whatever routine `qzoke_md5` calls and whatever the call, when the
returned value is a string, that string has exactly 32 bytes; the 33rd byte of
the buffer never reaches it. -/
theorem qzoke_md5_string_length (zig : Delegate) (weak : Zval → Option (List Nat))
    (args : List Zval) (output : CharArray 33) (s : List Nat)
    (h : (qzoke_md5 zig weak args output).return_value = .str s) : s.length = 32 := by
  unfold qzoke_md5 zif_qzoke_md5 at h
  cases hp : parseParameters weak args with
  | none => simp [hp] at h
  | some parsed =>
    obtain ⟨input, input_len⟩ := parsed
    simp only [hp, recorded] at h
    cases hz : zig input input_len output 33 with
    | mk result written =>
      cases result with
      | NULL => simp [hz] at h
      | object id =>
        simp only [hz, RETURN_STRINGL, Zval.str.injEq] at h
        rw [← h, List.length_take, written.property]
        rfl

/-- Witness of C2: the string returned for the empty input over the modelled
routine, from a buffer of 33 zero bytes. -/
theorem qzoke_md5_string_length_witness :
    (qzoke_md5 zig_md5 (fun _ => none) [.str []] ⟨List.replicate 33 0, rfl⟩).return_value
      = .str (ascii "d41d8cd98f00b204e9800998ecf8427e") ∧
    (ascii "d41d8cd98f00b204e9800998ecf8427e").length = 32 :=
  ⟨by rfl, qzoke_md5_string_length zig_md5 (fun _ => none) [.str []]
    ⟨List.replicate 33 0, rfl⟩ (ascii "d41d8cd98f00b204e9800998ecf8427e") (by rfl)⟩

/-- C3: on a string input `m`, `qzoke_md5` returns `false` exactly when the
call `zig_md5(m, len(m), output, 33)` returns `NULL`; when the routine returns
anything else, the returned value is a string. -/
theorem qzoke_md5_false_iff_null (zig : Delegate) (weak : Zval → Option (List Nat))
    (m : List Nat) (output : CharArray 33) :
    ((qzoke_md5 zig weak [.str m] output).return_value = .bool false
        ↔ (zig m m.length output 33).1 = .NULL) ∧
    ((zig m m.length output 33).1 = .NULL
        ∨ ∃ s, (qzoke_md5 zig weak [.str m] output).return_value = .str s) := by
  rw [qzoke_md5_str]
  cases hz : zig m m.length output 33 with
  | mk result written =>
    cases result with
    | NULL => simp
    | object id => simp

/-- C4: on a string input `m` for which the routine returns a pointer other
than `NULL`, whichever it is, the string returned by `qzoke_md5` is bytes 0 to
31 of the local buffer as the routine left it. -/
theorem qzoke_md5_reads_buffer (zig : Delegate) (weak : Zval → Option (List Nat))
    (m : List Nat) (output : CharArray 33) (id : Nat) (written : CharArray 33)
    (h : zig m m.length output 33 = (.object id, written)) :
    (qzoke_md5 zig weak [.str m] output).return_value = .str (written.val.take 32) := by
  rw [qzoke_md5_str, h]

/-- Witness of C4: a routine that writes 33 bytes `b` and returns a pointer to
some other object, number 7; the returned string is 32 bytes `b`. -/
theorem qzoke_md5_reads_buffer_witness :
    (fun _ _ _ _ => (Ptr.object 7, ⟨List.replicate 33 98, rfl⟩) : Delegate)
        (ascii "abc") (ascii "abc").length ⟨List.replicate 33 0, rfl⟩ 33
      = (.object 7, ⟨List.replicate 33 98, rfl⟩) ∧
    (qzoke_md5 (fun _ _ _ _ => (Ptr.object 7, ⟨List.replicate 33 98, rfl⟩))
        (fun _ => none) [.str (ascii "abc")] ⟨List.replicate 33 0, rfl⟩).return_value
      = .str (List.replicate 32 98) :=
  ⟨rfl, qzoke_md5_reads_buffer (fun _ _ _ _ => (Ptr.object 7, ⟨List.replicate 33 98, rfl⟩))
    (fun _ => none) (ascii "abc") ⟨List.replicate 33 0, rfl⟩ 7 ⟨List.replicate 33 98, rfl⟩ rfl⟩

/-- C5: over the modelled routine the operation always succeeds: for every
byte sequence `m`, of any length, `qzoke_md5` returns the 32-character
hexadecimal digest of `m` as a string, and not `false`. -/
theorem qzoke_md5_always_succeeds (weak : Zval → Option (List Nat)) (m : List Nat)
    (output : CharArray 33) :
    (qzoke_md5 zig_md5 weak [.str m] output).return_value = .str (hexEncode (digest m)) ∧
    (hexEncode (digest m)).length = 32 ∧
    (qzoke_md5 zig_md5 weak [.str m] output).return_value ≠ .bool false := by
  rw [qzoke_md5_zig_md5]
  exact ⟨rfl, hex_digest_length m, by simp⟩

/-- C6: determinism over the modelled routine: two calls of `qzoke_md5` on the
same bytes leave the same outcome, whatever the local buffer held before each
call and whatever the conversion rules of the runtime were. -/
theorem qzoke_md5_deterministic (weak₁ weak₂ : Zval → Option (List Nat)) (m : List Nat)
    (output₁ output₂ : CharArray 33) :
    qzoke_md5 zig_md5 weak₁ [.str m] output₁ = qzoke_md5 zig_md5 weak₂ [.str m] output₂ := by
  rw [qzoke_md5_zig_md5, qzoke_md5_zig_md5]

/-- C7: the padding invariant of the modelled engine: the Padded Message has a
length that is a multiple of 64 and exceeds that of the message; when
`len(m) mod 64` is in 56..63 it ends a whole block after the block that holds
the end of the message, and when `len(m)` is a multiple of 64 it is one block
longer than the message. -/
theorem pad_invariant (m : List Nat) :
    (pad m).length % 64 = 0 ∧
    m.length < (pad m).length ∧
    (56 ≤ m.length % 64 → (pad m).length = 64 * (m.length / 64 + 1) + 64) ∧
    (m.length % 64 = 0 → (pad m).length = m.length + 64) := by
  rw [pad_length]
  unfold padZeros
  refine ⟨?_, ?_, ?_, ?_⟩ <;> omega

/-- Witness of C7: messages of 56 and of 64 bytes are both padded to 128. -/
theorem pad_invariant_witness :
    (pad (List.replicate 56 97)).length = 128 ∧ (pad (List.replicate 64 97)).length = 128 :=
  ⟨(pad_invariant (List.replicate 56 97)).2.2.1 (by decide),
   (pad_invariant (List.replicate 64 97)).2.2.2 (by decide)⟩

/-- C8: on a string input `m`, `qzoke_md5` calls the routine exactly once, with
the bytes of `m`, their length, and a stated capacity of 33 bytes, which holds
32 hexadecimal characters and one terminator.  For a routine with any effects
on any world, the world after the function is the world after the single
application `routine m len(m) output 33` to the world before it; and the
calls that a recording routine notes down are that one call and no other. -/
theorem qzoke_md5_calls_once {σ : Type} (routine : Routine σ) (world : σ) (zig : Delegate)
    (weak : Zval → Option (List Nat)) (m : List Nat) (output : CharArray 33) :
    (zif_qzoke_md5 routine weak [.str m] output world).2
      = (routine m m.length output 33 world).2 ∧
    (qzoke_md5 zig weak [.str m] output).calls = [⟨m, m.length, 33⟩] ∧
    (qzoke_md5 zig weak [.str m] output).calls.all (fun c => 32 + 1 ≤ c.output_len) = true := by
  refine ⟨?_, ?_, ?_⟩
  · rw [zif_qzoke_md5_str]
    cases hz : routine m m.length output 33 world with
    | mk result after =>
      obtain ⟨pointer, written⟩ := result
      cases pointer <;> rfl
  · rw [qzoke_md5_str]
    cases hz : zig m m.length output 33 with
    | mk pointer written => cases pointer <;> rfl
  · rw [qzoke_md5_str]
    cases hz : zig m m.length output 33 with
    | mk pointer written => cases pointer <;> rfl

/-- C9: a call of `qzoke_md5` with an argument count other than 1 fails to
parse and returns without calling the routine: no call is recorded and the
returned value is the null value, neither a string nor `false`. -/
theorem qzoke_md5_wrong_count (zig : Delegate) (weak : Zval → Option (List Nat))
    (args : List Zval) (output : CharArray 33) (h : args.length ≠ 1) :
    parseParameters weak args = none ∧
    qzoke_md5 zig weak args output = ⟨.null, []⟩ := by
  have hp := parseParameters_count weak args h
  simp [qzoke_md5, zif_qzoke_md5, hp]

/-- Witness of C9: a call with two string arguments. -/
theorem qzoke_md5_wrong_count_witness :
    [Zval.str (ascii "a"), Zval.str (ascii "b")].length ≠ 1 ∧
    parseParameters (fun _ => none) [.str (ascii "a"), .str (ascii "b")] = none ∧
    qzoke_md5 zig_md5 (fun _ => none) [.str (ascii "a"), .str (ascii "b")]
        ⟨List.replicate 33 0, rfl⟩ = ⟨.null, []⟩ :=
  ⟨by decide, qzoke_md5_wrong_count zig_md5 (fun _ => none)
    [.str (ascii "a"), .str (ascii "b")] ⟨List.replicate 33 0, rfl⟩ (by decide)⟩

end Qzoke
